import Mathlib

/-!
Verification of the Jes-Bingo host-authoritative bingo session.
Shallow embedding of `src/gameUtils.ts` and the host message handlers of
`src/components/ActiveGame.tsx`. JavaScript `string | number | undefined`
cell values become `CellValue`; `Math.random()` draws become explicit
choice-function parameters; `Date.now()` becomes an explicit timestamp
parameter; React `setGameState` updates collapse to pure state transformers
(the host applies inbound messages atomically and in order).
-/

namespace Bingo

/-- JS `string | number` values as stored in cells and pools; `undef`
models JavaScript `undefined`, the result of out-of-range array reads. -/
inductive CellValue where
  | num (n : Nat)
  | str (s : String)
  | undef
  deriving DecidableEq, Repr, Inhabited

/-- `BingoCell` from `src/types.ts`. -/
structure BingoCell where
  id : String
  value : CellValue
  marked : Bool
  isFreeSpace : Bool
  deriving DecidableEq, Repr

instance : Inhabited BingoCell := ⟨⟨"", .undef, false, false⟩⟩

/-- `BingoCard` from `src/types.ts`. -/
structure BingoCard where
  id : String
  ownerIndex : Nat
  cardIndex : Nat
  playerName : String
  cells : List BingoCell
  hasBingo : Bool
  colorTheme : String
  deriving DecidableEq, Repr

instance : Inhabited BingoCard := ⟨⟨"", 0, 0, "", [], false, ""⟩⟩

/-- `GameMode` from `src/types.ts`. -/
inductive GameMode where
  | STANDARD
  | THEMED
  deriving DecidableEq, Repr

/-- `GameState` from `src/types.ts` (the fields the host handlers read). -/
structure GameState where
  mode : GameMode
  theme : String
  prize : String
  allItems : List CellValue
  calledItems : List CellValue
  currentCall : Option CellValue
  cards : List BingoCard
  winnerIds : List String
  winPatterns : List (List Nat)
  deriving Repr

/-- Host-to-client messages produced by the handlers we model. -/
inductive NetMsg where
  | NEXT_CALL (item : CellValue)
  | BINGO_ANNOUNCED (playerIndex : Nat) (cardId : String)
  deriving DecidableEq, Repr

/-- `THEME_COLORS` from `src/gameUtils.ts`. -/
def THEME_COLORS : List String :=
  ["bg-red-500", "bg-orange-500", "bg-amber-500", "bg-green-500",
   "bg-emerald-500", "bg-teal-500", "bg-cyan-500", "bg-sky-500",
   "bg-blue-500", "bg-indigo-500", "bg-violet-500", "bg-purple-500",
   "bg-fuchsia-500", "bg-pink-500", "bg-rose-500"]

/-- `getStandardPatterns` from `src/gameUtils.ts`: 5 rows, 5 columns and
the two diagonals of the row-major 5×5 grid. -/
def getStandardPatterns : List (List Nat) :=
  let rows := (List.range 5).map (fun r => [r*5, r*5+1, r*5+2, r*5+3, r*5+4])
  let cols := (List.range 5).map (fun c => [c, c+5, c+10, c+15, c+20])
  rows ++ cols ++ [[0, 6, 12, 18, 24], [4, 8, 12, 16, 20]]

/-- One index of a pattern, as read by `checkPatternMatch`:
`cells[index]` is `undefined` (falsy) out of range, otherwise
`cell.marked || cell.isFreeSpace`. -/
def cellOk (cells : List BingoCell) (index : Nat) : Bool :=
  match cells[index]? with
  | some cell => cell.marked || cell.isFreeSpace
  | none => false

/-- `checkPatternMatch` from `src/gameUtils.ts`. -/
def checkPatternMatch (cells : List BingoCell) (patterns : List (List Nat)) : Bool :=
  patterns.any (fun pattern => pattern.all (fun index => cellOk cells index))

/-- JS swap `[a[j], a[k]] = [a[k], a[j]]` used by STANDARD generation:
both reads happen first, then both writes. Out-of-range indices never
occur in the source loop; we leave the list unchanged there. -/
def jsSwap (l : List Nat) (j k : Nat) : List Nat :=
  match l[j]?, l[k]? with
  | some a, some b => (l.set j b).set k a
  | _, _ => l

/-- The THEMED-mode line `[shuffled[k], shuffled[k]] = [shuffled[k], shuffled[j]]`
of `src/gameUtils.ts`: the right-hand pair `(shuffled[k], shuffled[j])` is
read first, then `shuffled[k]` is assigned `shuffled[k]` and immediately
overwritten with `shuffled[j]`; `shuffled[j]` itself is never written. -/
def brokenSwap (l : List CellValue) (j k : Nat) : List CellValue :=
  match l[j]? with
  | some b => l.set k b
  | none => l

/-- The Fisher–Yates loop `for (j = len-1; j > 0; j--) swap(j, k(j))`,
parametrised by the swap operation and by the `Math.floor(Math.random()*(j+1))`
draws `ks`. The first argument is the next value of `j`. -/
def shuffleAux (swapFn : List α → Nat → Nat → List α) (ks : Nat → Nat) :
    Nat → List α → List α
  | 0, l => l
  | j+1, l => shuffleAux swapFn ks j (swapFn l (j+1) (ks (j+1)))

/-- STANDARD-mode column shuffle of `src/gameUtils.ts`. -/
def stdShuffle (ks : Nat → Nat) (l : List Nat) : List Nat :=
  shuffleAux jsSwap ks (l.length - 1) l

/-- THEMED-mode pool shuffle of `src/gameUtils.ts` (with the broken swap). -/
def themedShuffle (ks : Nat → Nat) (l : List CellValue) : List CellValue :=
  shuffleAux brokenSwap ks (l.length - 1) l

/-- `Array.from({length: hi - lo + 1}, (_, k) => k + lo)`. -/
def mkRange (lo hi : Nat) : List Nat := List.range' lo (hi - lo + 1)

/-- The five STANDARD column ranges B, I, N, G, O. -/
def stdRanges : List (Nat × Nat) := [(1, 15), (16, 30), (31, 45), (46, 60), (61, 75)]

/-- `colNumbers` of STANDARD generation: for each column, shuffle its
15-value range with that column's draws and keep the first 5. -/
def stdColNumbers (ks : Nat → Nat → Nat) : List (List Nat) :=
  stdRanges.enum.map (fun p => (stdShuffle (ks p.1) (mkRange p.2.1 p.2.2)).take 5)

/-- One STANDARD cell at row `r`, column `c`; `colNumbers[c][r]` out of
range would be JS `undefined`. -/
def mkStdCell (cols : List (List Nat)) (playerIdx cardIdx r c : Nat) : BingoCell :=
  let isFree := r == 2 && c == 2
  { id := s!"p{playerIdx}_c{cardIdx}_r{r}_col{c}"
    value :=
      if isFree then .str "FREE"
      else match (cols.getD c [])[r]? with
        | some n => .num n
        | none => .undef
    marked := false
    isFreeSpace := isFree }

/-- The 25 row-major STANDARD cells of one card. -/
def standardCells (ks : Nat → Nat → Nat) (playerIdx cardIdx : Nat) : List BingoCell :=
  let cols := stdColNumbers ks
  (List.range 5).flatMap (fun r => (List.range 5).map (fun c => mkStdCell cols playerIdx cardIdx r c))

/-- One THEMED cell at row `r`, column `c`. The source fills non-free
cells with `cardItems[itemIdx++]`, so flat position `p = r*5+c` reads
`cardItems[p]` before the free space and `cardItems[p-1]` after it;
a read past `cardItems.length` is JS `undefined`. -/
def mkThemedCell (cardItems : List CellValue) (playerIdx cardIdx r c : Nat) : BingoCell :=
  let isFree := r == 2 && c == 2
  { id := s!"p{playerIdx}_c{cardIdx}_r{r}_col{c}"
    value :=
      if isFree then .str "FREE"
      else cardItems.getD (if r*5+c < 12 then r*5+c else r*5+c - 1) .undef
    marked := false
    isFreeSpace := isFree }

/-- The 25 row-major THEMED cells of one card. -/
def themedCells (ks : Nat → Nat) (items : List CellValue) (playerIdx cardIdx : Nat) :
    List BingoCell :=
  let shuffled := themedShuffle ks items
  let cardItems := shuffled.take 24
  (List.range 5).flatMap (fun r => (List.range 5).map (fun c => mkThemedCell cardItems playerIdx cardIdx r c))

/-- `generateCards` from `src/gameUtils.ts`. `rand idx cardIdx col j` is
the draw `Math.floor(Math.random() * (j+1))` for player position `idx`,
card `cardIdx`, column `col` (THEMED uses column 0); `now` is `Date.now()`. -/
def generateCards (rand : Nat → Nat → Nat → Nat → Nat) (now : Nat)
    (items : List CellValue) (themeMode : GameMode) (playerNames : List String)
    (startIndex : Nat := 0) : List BingoCard :=
  playerNames.enum.flatMap (fun p =>
    let idx := p.1
    let playerName := p.2
    let playerIdx := startIndex + idx
    (List.range 4).map (fun cardIdx =>
      let cells :=
        if themeMode = .STANDARD then standardCells (rand idx cardIdx) playerIdx cardIdx
        else themedCells (rand idx cardIdx 0) items playerIdx cardIdx
      { id := s!"p{playerIdx}_c{cardIdx}_{now}"
        ownerIndex := playerIdx
        cardIndex := cardIdx
        playerName := playerName
        cells := cells
        hasBingo := false
        colorTheme := THEME_COLORS.getD (playerIdx % THEME_COLORS.length) "" }))

/-! Host message handlers of `src/components/ActiveGame.tsx`, as pure
state transformers returning the new state and the broadcast messages. -/

/-- The claim-verification rebuild of the `CLAIM_BINGO` handler:
`marked := cell.isFreeSpace || calledItems.includes(cell.value)`;
the stored `marked` flag is discarded. -/
def verifyCells (calledItems : List CellValue) (cells : List BingoCell) : List BingoCell :=
  cells.map (fun cell =>
    { cell with marked := cell.isFreeSpace || calledItems.contains cell.value })

/-- `announceWinner` of `ActiveGame.tsx`: no-op when the card id is
already recorded, otherwise append it to `winnerIds` and broadcast
`BINGO_ANNOUNCED` (celebration and audio side effects are presentational). -/
def announceWinner (gs : GameState) (cardId : String) (playerIndex : Nat) :
    GameState × List NetMsg :=
  if gs.winnerIds.contains cardId then (gs, [])
  else ({ gs with winnerIds := gs.winnerIds ++ [cardId] },
        [.BINGO_ANNOUNCED playerIndex cardId])

/-- The `CLAIM_BINGO` branch of the host connection handler: find the
card, rebuild its marks from `calledItems`, evaluate the win patterns,
and only on a fresh verified win record the winner and broadcast; a
false bingo is a host-local notification only. -/
def handleClaimBingo (gs : GameState) (cardId : String) (playerIndex : Nat) :
    GameState × List NetMsg :=
  match gs.cards.find? (fun c => c.id == cardId) with
  | none => (gs, [])
  | some card =>
    let verifiedCells := verifyCells gs.calledItems card.cells
    if checkPatternMatch verifiedCells gs.winPatterns then
      if !gs.winnerIds.contains cardId then announceWinner gs cardId playerIndex
      else (gs, [])
    else (gs, [])

/-- Sequential host processing of a list of `CLAIM_BINGO` messages
`(cardId, playerIndex)`, collecting every broadcast. -/
def processClaims : GameState → List (String × Nat) → GameState × List NetMsg
  | gs, [] => (gs, [])
  | gs, m :: rest =>
    let r1 := handleClaimBingo gs m.1 m.2
    let r2 := processClaims r1.1 rest
    (r2.1, r1.2 ++ r2.2)

/-- The `while(usedIndices.has(targetIndex)) targetIndex++` loop of the
`JOIN_REQUEST` handler, with explicit fuel (the loop leaves the used set
after at most `used.length + 1` probes). -/
def firstUnusedFrom (used : List Nat) : Nat → Nat → Nat
  | 0, t => t
  | fuel+1, t => if used.contains t then firstUnusedFrom used fuel (t+1) else t

/-- The owner index allocated to a brand-new player: the smallest
non-negative integer not used by any existing card. -/
def smallestUnused (used : List Nat) : Nat :=
  firstUnusedFrom used (used.length + 1) 0

/-- The `JOIN_REQUEST` branch of the host connection handler: reuse the
owner index of a card whose `playerName` matches case-insensitively and
resend that player's cards, else allocate the smallest unused owner index
and generate 4 fresh cards for it. Returns the new state, the target
owner index, and the cards sent in `WELCOME`. -/
def handleJoinRequest (rand : Nat → Nat → Nat → Nat → Nat) (now : Nat)
    (gs : GameState) (playerName : String) : GameState × Nat × List BingoCard :=
  match gs.cards.find? (fun c => c.playerName.toLower == playerName.toLower) with
  | some existingPlayerCard =>
    let targetIndex := existingPlayerCard.ownerIndex
    (gs, targetIndex, gs.cards.filter (fun c => c.ownerIndex == targetIndex))
  | none =>
    let used := gs.cards.map (fun c => c.ownerIndex)
    let targetIndex := smallestUnused used
    let cardsToSend := generateCards rand now gs.allItems gs.mode [playerName] targetIndex
    ({ gs with cards := gs.cards ++ cardsToSend }, targetIndex, cardsToSend)

/-- `callNextNumber` of `ActiveGame.tsx`: no-op when every item is
already called; otherwise draw `availableItems[randomIndex]`, prepend it
to `calledItems`, set it as `currentCall`, mark matching cells on the
host's cards, and broadcast `NEXT_CALL`. `randomIndex` stands for
`Math.floor(Math.random() * availableItems.length)`, which is always in
range; the out-of-range guard is unreachable. -/
def callNextNumber (randomIndex : Nat) (gs : GameState) : GameState × List NetMsg :=
  let availableItems := gs.allItems.filter (fun item => !gs.calledItems.contains item)
  if availableItems.length = 0 then (gs, [])
  else
    match availableItems[randomIndex]? with
    | none => (gs, [])
    | some nextItem =>
      let updatedCards := gs.cards.map (fun card =>
        { card with cells := card.cells.map (fun cell =>
            if cell.value == nextItem then { cell with marked := true } else cell) })
      ({ gs with
          calledItems := nextItem :: gs.calledItems
          currentCall := some nextItem
          cards := updatedCards },
       [.NEXT_CALL nextItem])

/-- A sequence of host calls with the given random draws. -/
def iterateCalls : List Nat → GameState → GameState
  | [], gs => gs
  | r :: rs, gs => iterateCalls rs (callNextNumber r gs).1

/-! Concrete inputs used to evaluate the generators. -/

/-- A pool of 24 pairwise-distinct values. -/
def pool24 : List CellValue := (List.range 24).map .num

/-- A pool of 20 values, fewer than the 24 a themed card needs. -/
def pool20 : List CellValue := (List.range 20).map .num

/-- Random draws that leave every swap in place (`k = j`), realisable
since `Math.floor(Math.random() * (j+1))` ranges over `0..j`. -/
def ksId : Nat → Nat → Nat → Nat → Nat := fun _ _ _ j => j

/-- Random draws whose very first themed swap picks `k = 0` at `j = 23`
and leaves every later position alone (`k = j`). -/
def ks4 : Nat → Nat → Nat → Nat → Nat := fun _ _ _ j => if j = 23 then 0 else j

/-! Basic lemmas about the shuffles. -/

theorem brokenSwap_length (l : List CellValue) (j k : Nat) :
    (brokenSwap l j k).length = l.length := by
  unfold brokenSwap
  cases h : l[j]? <;> simp

theorem shuffleAux_length (swapFn : List α → Nat → Nat → List α)
    (hswap : ∀ l j k, (swapFn l j k).length = l.length) (ks : Nat → Nat) :
    ∀ (j : Nat) (l : List α), (shuffleAux swapFn ks j l).length = l.length
  | 0, l => rfl
  | j+1, l => by
    rw [shuffleAux, shuffleAux_length swapFn hswap ks j, hswap]

theorem themedShuffle_length (ks : Nat → Nat) (l : List CellValue) :
    (themedShuffle ks l).length = l.length :=
  shuffleAux_length brokenSwap brokenSwap_length ks _ l

/-! Concrete states used by the witnesses. -/

/-- A card whose only cell is client-marked although its value was never
called. -/
def cardC1 : BingoCard :=
  { id := "x", ownerIndex := 0, cardIndex := 0, playerName := "A",
    cells := [⟨"c0", .num 1, true, false⟩], hasBingo := false, colorTheme := "" }

/-- A state holding `cardC1`, an empty call history and the single-cell
win pattern `[[0]]`. -/
def gsC1 : GameState :=
  { mode := .STANDARD, theme := "", prize := "", allItems := [.num 1],
    calledItems := [], currentCall := none, cards := [cardC1],
    winnerIds := [], winPatterns := [[0]] }

/-- A card whose only cell's value has been called (a legitimate win
under pattern `[[0]]`). -/
def cardC2 : BingoCard :=
  { id := "w", ownerIndex := 1, cardIndex := 0, playerName := "B",
    cells := [⟨"c0", .num 7, false, false⟩], hasBingo := false, colorTheme := "" }

/-- A state in which `cardC2` legitimately wins and is not yet recorded. -/
def gsC2 : GameState :=
  { mode := .STANDARD, theme := "", prize := "", allItems := [.num 7],
    calledItems := [.num 7], currentCall := some (.num 7), cards := [cardC2],
    winnerIds := [], winPatterns := [[0]] }

/-- 25 unmarked non-free cells with row 0 marked: a completed top row. -/
def cellsRow0 : List BingoCell :=
  (List.range 25).map (fun i => ⟨s!"c{i}", .num i, decide (i < 5), false⟩)

/-- A card owned by player index 0 named "Alice". -/
def cardJoin : BingoCard :=
  { id := "j0", ownerIndex := 0, cardIndex := 0, playerName := "Alice",
    cells := [], hasBingo := false, colorTheme := "" }

/-- A state with `cardJoin` as its only card. -/
def gsJoin : GameState :=
  { mode := .THEMED, theme := "t", prize := "", allItems := [],
    calledItems := [], currentCall := none, cards := [cardJoin],
    winnerIds := [], winPatterns := [[0]] }

/-- A state with one uncalled item. -/
def gsCall : GameState :=
  { mode := .THEMED, theme := "", prize := "", allItems := [.num 1, .num 2],
    calledItems := [.num 2], currentCall := some (.num 2), cards := [],
    winnerIds := [], winPatterns := [[0]] }

/-- A state whose every item has been called. -/
def gsExhausted : GameState :=
  { mode := .THEMED, theme := "", prize := "", allItems := [.num 2],
    calledItems := [.num 2], currentCall := some (.num 2), cards := [],
    winnerIds := [], winPatterns := [[0]] }

/-! Theorems. -/

set_option maxRecDepth 40000

/-- Claim C10: `checkPatternMatch` is total; a pattern index with no
corresponding cell (index at or past `cells.length`, as CUSTOM patterns
allow) makes that whole pattern count as unsatisfied, so the pattern can
be dropped without changing the overall result. -/
theorem claim_C10_out_of_range_pattern_unsatisfied
    (cells : List BingoCell) (pattern : List Nat) (rest : List (List Nat))
    (i : Nat) (hmem : i ∈ pattern) (hlen : cells.length ≤ i) :
    checkPatternMatch cells (pattern :: rest) = checkPatternMatch cells rest := by
  have hcell : cellOk cells i = false := by
    unfold cellOk
    rw [List.getElem?_eq_none hlen]
  have hall : pattern.all (fun index => cellOk cells index) = false := by
    rw [List.all_eq_false]
    exact ⟨i, hmem, by simp [hcell]⟩
  simp [checkPatternMatch, hall]

/-- Witness for C10 at a concrete input: index 3 is out of range for a
2-cell list, so the pattern `[0, 3]` never wins. -/
theorem claim_C10_witness :
    checkPatternMatch [⟨"a", .num 1, true, false⟩, ⟨"b", .num 2, true, false⟩] [[0, 3]] =
      checkPatternMatch [⟨"a", .num 1, true, false⟩, ⟨"b", .num 2, true, false⟩] [] :=
  claim_C10_out_of_range_pattern_unsatisfied _ [0, 3] [] 3 (by decide) (by decide)

/-- Claim C1: on a `CLAIM_BINGO` for a card present in the host's cards,
verification rebuilds each cell's mark as `isFreeSpace || value ∈
calledItems` (`verifyCells`, which discards the client-reported marks);
when no win pattern is satisfied by the rebuilt cells, `winnerIds` is
unchanged and nothing is broadcast. -/
theorem claim_C1_false_claim_rejected
    (gs : GameState) (cardId : String) (playerIndex : Nat) (card : BingoCard)
    (hfind : gs.cards.find? (fun c => c.id == cardId) = some card)
    (hno : checkPatternMatch (verifyCells gs.calledItems card.cells) gs.winPatterns = false) :
    (handleClaimBingo gs cardId playerIndex).1.winnerIds = gs.winnerIds ∧
    (handleClaimBingo gs cardId playerIndex).2 = [] := by
  unfold handleClaimBingo
  rw [hfind]
  simp [hno]

/-- Witness for C1: `cardC1` is client-marked but its value was never
called, so its claim leaves `winnerIds` empty and broadcasts nothing. -/
theorem claim_C1_witness :
    (handleClaimBingo gsC1 "x" 0).1.winnerIds = gsC1.winnerIds ∧
    (handleClaimBingo gsC1 "x" 0).2 = [] :=
  claim_C1_false_claim_rejected gsC1 "x" 0 cardC1 (by decide) (by decide)

/-- Counterexample to claim C3 as stated: THEMED generation from a
20-item pool does not fail — `generateCards` still produces 4 cards
(there is no `GenerationFailure` path in the code). -/
theorem claim_C3_counterexample :
    (generateCards ksId 0 pool20 .THEMED ["A"] 0).length = 4 := by decide

/-- Claim C3 as amended: THEMED generation with a pool of fewer than 24
values does not fail; it still produces 4 cards per player, and the
cells whose draw lies past the pool's end hold the JS `undefined` value
(in particular the last cell of every such card). -/
theorem claim_C3_amended_small_pool_produces_undefined_cells
    (rand : Nat → Nat → Nat → Nat → Nat) (now : Nat) (items : List CellValue)
    (name : String) (startIndex : Nat) (hlt : items.length < 24) :
    (generateCards rand now items .THEMED [name] startIndex).length = 4 ∧
    ∀ card ∈ generateCards rand now items .THEMED [name] startIndex,
      (card.cells.getD 24 default).isFreeSpace = false ∧
      (card.cells.getD 24 default).value = .undef := by
  constructor
  · simp [generateCards]
  · intro card hcard
    simp only [generateCards] at hcard
    simp only [List.enum, List.enumFrom, List.flatMap_cons, List.flatMap_nil,
      List.append_nil, List.mem_map, List.mem_range] at hcard
    obtain ⟨cardIdx, hci, rfl⟩ := hcard
    refine ⟨rfl, ?_⟩
    show ((themedShuffle (rand 0 cardIdx 0) items).take 24).getD 23 .undef = .undef
    apply List.getD_eq_default
    rw [List.length_take, themedShuffle_length]
    omega

/-- Witness for the amended C3: a concrete 20-item pool still yields 4
cards whose final cell is `undefined`. -/
theorem claim_C3_amended_witness :
    (generateCards ksId 0 pool20 .THEMED ["A"] 0).length = 4 ∧
    ∀ card ∈ generateCards ksId 0 pool20 .THEMED ["A"] 0,
      (card.cells.getD 24 default).isFreeSpace = false ∧
      (card.cells.getD 24 default).value = .undef :=
  claim_C3_amended_small_pool_produces_undefined_cells ksId 0 pool20 "A" 0 (by decide)

/-- Claim C4 refuted on the code (the broken themed swap
`[shuffled[k], shuffled[k]] = [shuffled[k], shuffled[j]]`): from the
24-value pairwise-distinct pool `pool24`, with the realisable draw
sequence `ks4` (every draw at most its loop index), the first generated
THEMED card holds the value 23 in two different non-free cells. -/
theorem claim_C4_code_bug_duplicate_value_on_themed_card :
    (∀ j < 24, ks4 0 0 0 j ≤ j) ∧ pool24.Nodup ∧ pool24.length = 24 ∧
    (((generateCards ks4 0 pool24 .THEMED ["A"] 0).getD 0 default).cells.getD 0 default).isFreeSpace = false ∧
    (((generateCards ks4 0 pool24 .THEMED ["A"] 0).getD 0 default).cells.getD 24 default).isFreeSpace = false ∧
    (((generateCards ks4 0 pool24 .THEMED ["A"] 0).getD 0 default).cells.getD 0 default).value = .num 23 ∧
    (((generateCards ks4 0 pool24 .THEMED ["A"] 0).getD 0 default).cells.getD 24 default).value = .num 23 := by
  decide

/-- Claim C9 refuted on the code: card ids are
`p{ownerIndex}_c{cardIndex}_{Date.now()}`, so two `generateCards`
invocations for the same owner index in the same instant (`now = 5`)
yield two distinct cards (different player names) sharing one id. -/
theorem claim_C9_code_bug_id_collision_same_instant :
    ((generateCards ksId 5 [] .THEMED ["A"] 0).getD 0 default).id =
      ((generateCards ksId 5 [] .THEMED ["Z"] 0).getD 0 default).id ∧
    ((generateCards ksId 5 [] .THEMED ["A"] 0).getD 0 default).ownerIndex =
      ((generateCards ksId 5 [] .THEMED ["Z"] 0).getD 0 default).ownerIndex ∧
    ((generateCards ksId 5 [] .THEMED ["A"] 0).getD 0 default) ≠
      ((generateCards ksId 5 [] .THEMED ["Z"] 0).getD 0 default) := by
  refine ⟨rfl, rfl, ?_⟩
  intro h
  have : ((generateCards ksId 5 [] .THEMED ["A"] 0).getD 0 default).playerName =
      ((generateCards ksId 5 [] .THEMED ["Z"] 0).getD 0 default).playerName := by rw [h]
  simp only [generateCards] at this
  exact absurd this (by decide)

theorem handleClaimBingo_already_won (gs : GameState) (cardId : String) (pidx : Nat)
    (h : gs.winnerIds.contains cardId = true) :
    handleClaimBingo gs cardId pidx = (gs, []) := by
  unfold handleClaimBingo
  cases hfind : gs.cards.find? (fun c => c.id == cardId) with
  | none => rfl
  | some card =>
    by_cases hm : checkPatternMatch (verifyCells gs.calledItems card.cells) gs.winPatterns
    · simp only [hm, if_true]
      rw [h]
      rfl
    · simp [hm]

theorem processClaims_already_won (gs : GameState) (cardId : String) (pidxs : List Nat)
    (h : gs.winnerIds.contains cardId = true) :
    processClaims gs (pidxs.map (fun p => (cardId, p))) = (gs, []) := by
  induction pidxs with
  | nil => rfl
  | cons p ps ih =>
    simp [processClaims, handleClaimBingo_already_won gs cardId p h, ih]

/-- Predicate for a `BINGO_ANNOUNCED` broadcast. -/
def isAnnounce : NetMsg → Bool
  | .BINGO_ANNOUNCED _ _ => true
  | _ => false

/-- Claim C2: for a card that legitimately wins against the host's
`calledItems` and is not yet recorded, sequentially processing two or
more `CLAIM_BINGO` messages for its id leaves exactly one occurrence of
the id in `winnerIds` and at most one `BINGO_ANNOUNCED` broadcast. -/
theorem claim_C2_duplicate_claims_idempotent
    (gs : GameState) (cardId : String) (card : BingoCard) (pidxs : List Nat)
    (hfind : gs.cards.find? (fun c => c.id == cardId) = some card)
    (hwin : checkPatternMatch (verifyCells gs.calledItems card.cells) gs.winPatterns = true)
    (hnew : gs.winnerIds.contains cardId = false)
    (hlen : 2 ≤ pidxs.length) :
    (processClaims gs (pidxs.map (fun p => (cardId, p)))).1.winnerIds.count cardId = 1 ∧
    ((processClaims gs (pidxs.map (fun p => (cardId, p)))).2.countP isAnnounce) ≤ 1 := by
  match pidxs with
  | p :: rest =>
    have hnotmem : cardId ∉ gs.winnerIds := by simpa using hnew
    have h1 : handleClaimBingo gs cardId p =
        ({ gs with winnerIds := gs.winnerIds ++ [cardId] }, [.BINGO_ANNOUNCED p cardId]) := by
      unfold handleClaimBingo
      rw [hfind]
      simp [hwin, hnew, hnotmem, announceWinner]
    have h2 : ({ gs with winnerIds := gs.winnerIds ++ [cardId] } : GameState).winnerIds.contains
        cardId = true := by simp
    have h3 : processClaims ({ gs with winnerIds := gs.winnerIds ++ [cardId] } : GameState)
        (rest.map (fun q => (cardId, q))) =
        ({ gs with winnerIds := gs.winnerIds ++ [cardId] }, []) :=
      processClaims_already_won _ cardId rest h2
    simp only [List.map_cons, processClaims, h1, h3]
    constructor
    · rw [List.count_append, List.count_eq_zero.mpr hnotmem]
      simp
    · simp [isAnnounce]

/-- Witness for C2: two claims for the legitimately winning `cardC2`
leave its id exactly once in `winnerIds` with at most one broadcast. -/
theorem claim_C2_witness :
    (processClaims gsC2 ([0, 0].map (fun p => ("w", p)))).1.winnerIds.count "w" = 1 ∧
    ((processClaims gsC2 ([0, 0].map (fun p => ("w", p)))).2.countP isAnnounce) ≤ 1 :=
  claim_C2_duplicate_claims_idempotent gsC2 "w" cardC2 [0, 0]
    (by decide) (by decide) (by decide) (by decide)

theorem callNextNumber_nodup_step (r : Nat) (gs : GameState)
    (h : gs.calledItems.Nodup) : (callNextNumber r gs).1.calledItems.Nodup := by
  unfold callNextNumber
  dsimp only
  split
  · exact h
  · split
    · exact h
    · rename_i nextItem heq
      rw [List.nodup_cons]
      have hmem := List.getElem?_mem heq
      have hpred := (List.mem_filter.mp hmem).2
      refine ⟨?_, h⟩
      simpa using hpred

/-- Claim C8: `callNextNumber` either issues no call and leaves the state
unchanged when every item of `allItems` is already called, or draws an
uncalled item of `allItems`, prepends it to `calledItems` and sets it as
`currentCall`; consequently `calledItems` stays duplicate-free over any
sequence of calls. -/
theorem claim_C8_call_next_no_duplicates (gs : GameState) (r : Nat) :
    ((∀ item ∈ gs.allItems, item ∈ gs.calledItems) →
        callNextNumber r gs = (gs, [])) ∧
    (∀ hr : r < (gs.allItems.filter (fun item => !gs.calledItems.contains item)).length,
      ((gs.allItems.filter (fun item => !gs.calledItems.contains item)).get ⟨r, hr⟩ ∈ gs.allItems ∧
       (gs.allItems.filter (fun item => !gs.calledItems.contains item)).get ⟨r, hr⟩ ∉ gs.calledItems) ∧
      (callNextNumber r gs).1.calledItems =
        (gs.allItems.filter (fun item => !gs.calledItems.contains item)).get ⟨r, hr⟩ :: gs.calledItems ∧
      (callNextNumber r gs).1.currentCall =
        some ((gs.allItems.filter (fun item => !gs.calledItems.contains item)).get ⟨r, hr⟩) ∧
      (callNextNumber r gs).2 =
        [.NEXT_CALL ((gs.allItems.filter (fun item => !gs.calledItems.contains item)).get ⟨r, hr⟩)]) ∧
    (gs.calledItems.Nodup → ∀ rs : List Nat, (iterateCalls rs gs).calledItems.Nodup) := by
  refine ⟨?_, ?_, ?_⟩
  · intro hall
    have hnil : gs.allItems.filter (fun item => !gs.calledItems.contains item) = [] := by
      rw [List.filter_eq_nil_iff]
      intro a ha
      simp [hall a ha]
    unfold callNextNumber
    rw [hnil]
    rfl
  · intro hr
    have hsome : (gs.allItems.filter (fun item => !gs.calledItems.contains item))[r]? =
        some ((gs.allItems.filter (fun item => !gs.calledItems.contains item)).get ⟨r, hr⟩) :=
      List.getElem?_eq_getElem hr
    have hne : ¬ (gs.allItems.filter (fun item => !gs.calledItems.contains item)).length = 0 := by
      omega
    have hmem := List.getElem_mem hr
    have hf := List.mem_filter.mp hmem
    refine ⟨⟨hf.1, by simpa using hf.2⟩, ?_, ?_, ?_⟩ <;>
      · unfold callNextNumber
        dsimp only
        rw [if_neg hne, hsome]
  · intro hnd rs
    induction rs generalizing gs with
    | nil => exact hnd
    | cons r rs ih => exact ih _ (callNextNumber_nodup_step r gs hnd)

theorem countP_le_succ_split (used : List Nat) (t : Nat) :
    used.countP (fun x => decide (t ≤ x)) =
      used.countP (fun x => decide (t+1 ≤ x)) + used.countP (fun x => x == t) := by
  induction used with
  | nil => rfl
  | cons x xs ih =>
    simp only [List.countP_cons, ih]
    by_cases h1 : t + 1 ≤ x
    · have h2 : t ≤ x := by omega
      have h3 : ¬ (x = t) := by omega
      simp [h1, h2, h3]
      omega
    · by_cases h2 : x = t
      · subst h2
        simp [h1]
        omega
      · have h3 : ¬ (t ≤ x) := by omega
        simp [h1, h2, h3]

theorem firstUnusedFrom_not_mem (used : List Nat) :
    ∀ (fuel t : Nat), used.countP (fun x => decide (t ≤ x)) < fuel →
      firstUnusedFrom used fuel t ∉ used := by
  intro fuel
  induction fuel with
  | zero => exact fun t h => absurd h (Nat.not_lt_zero _)
  | succ fuel ih =>
    intro t h
    unfold firstUnusedFrom
    by_cases hc : used.contains t
    · rw [if_pos hc]
      apply ih
      have hsplit := countP_le_succ_split used t
      have htmem : t ∈ used := by simpa using hc
      have hpos : 0 < used.countP (fun x => x == t) := by
        rw [List.countP_pos_iff]
        exact ⟨t, htmem, by simp⟩
      omega
    · rw [if_neg hc]
      simpa using hc

theorem firstUnusedFrom_min (used : List Nat) :
    ∀ (fuel t s : Nat), t ≤ s → s < firstUnusedFrom used fuel t → s ∈ used := by
  intro fuel
  induction fuel with
  | zero =>
    intro t s hts hlt
    unfold firstUnusedFrom at hlt
    exact absurd hlt (by omega)
  | succ fuel ih =>
    intro t s hts hlt
    unfold firstUnusedFrom at hlt
    by_cases hc : used.contains t
    · rw [if_pos hc] at hlt
      rcases Nat.eq_or_lt_of_le hts with heq | hlt2
      · rw [← heq]
        simpa using hc
      · exact ih (t+1) s hlt2 hlt
    · rw [if_neg hc] at hlt
      exact absurd hlt (by omega)

/-- `smallestUnused` really is the smallest non-negative integer absent
from `used`. -/
theorem smallestUnused_spec (used : List Nat) :
    smallestUnused used ∉ used ∧ ∀ s < smallestUnused used, s ∈ used := by
  constructor
  · apply firstUnusedFrom_not_mem
    have := List.countP_le_length (fun x => decide (0 ≤ x)) (l := used)
    omega
  · intro s hs
    exact firstUnusedFrom_min used (used.length + 1) 0 s (Nat.zero_le s) hs

theorem generateCards_singleton_length (rand : Nat → Nat → Nat → Nat → Nat)
    (now : Nat) (items : List CellValue) (mode : GameMode) (name : String)
    (startIndex : Nat) :
    (generateCards rand now items mode [name] startIndex).length = 4 := by
  simp [generateCards]

theorem generateCards_singleton_owner (rand : Nat → Nat → Nat → Nat → Nat)
    (now : Nat) (items : List CellValue) (mode : GameMode) (name : String)
    (startIndex : Nat) :
    ∀ card ∈ generateCards rand now items mode [name] startIndex,
      card.ownerIndex = startIndex := by
  intro card hcard
  simp only [generateCards] at hcard
  simp only [List.enum, List.enumFrom, List.flatMap_cons, List.flatMap_nil,
    List.append_nil, List.mem_map, List.mem_range] at hcard
  obtain ⟨cardIdx, hci, rfl⟩ := hcard
  rfl

/-- Claim C7: a `JOIN_REQUEST` whose name matches an existing card
case-insensitively reuses that card's owner index and resends that
player's cards without touching the state; otherwise it allocates the
smallest owner index not used by any existing card, generates exactly 4
cards for it, all owned by that index, and appends them to the state. -/
theorem claim_C7_join_idempotent (rand : Nat → Nat → Nat → Nat → Nat)
    (now : Nat) (gs : GameState) (playerName : String) :
    (∀ card, gs.cards.find? (fun c => c.playerName.toLower == playerName.toLower) = some card →
      (handleJoinRequest rand now gs playerName).1 = gs ∧
      (handleJoinRequest rand now gs playerName).2.1 = card.ownerIndex ∧
      (handleJoinRequest rand now gs playerName).2.2 =
        gs.cards.filter (fun c => c.ownerIndex == card.ownerIndex)) ∧
    (gs.cards.find? (fun c => c.playerName.toLower == playerName.toLower) = none →
      (¬ ∃ c ∈ gs.cards, c.ownerIndex = (handleJoinRequest rand now gs playerName).2.1) ∧
      (∀ s < (handleJoinRequest rand now gs playerName).2.1,
        ∃ c ∈ gs.cards, c.ownerIndex = s) ∧
      (handleJoinRequest rand now gs playerName).2.2.length = 4 ∧
      (∀ card ∈ (handleJoinRequest rand now gs playerName).2.2,
        card.ownerIndex = (handleJoinRequest rand now gs playerName).2.1) ∧
      (handleJoinRequest rand now gs playerName).1.cards =
        gs.cards ++ (handleJoinRequest rand now gs playerName).2.2) := by
  constructor
  · intro card hfind
    unfold handleJoinRequest
    rw [hfind]
    exact ⟨rfl, rfl, rfl⟩
  · intro hfind
    have hspec := smallestUnused_spec (gs.cards.map (fun c => c.ownerIndex))
    have hproj1 : (handleJoinRequest rand now gs playerName).2.1 =
        smallestUnused (gs.cards.map (fun c => c.ownerIndex)) := by
      unfold handleJoinRequest
      rw [hfind]
    have hproj2 : (handleJoinRequest rand now gs playerName).2.2 =
        generateCards rand now gs.allItems gs.mode [playerName]
          (smallestUnused (gs.cards.map (fun c => c.ownerIndex))) := by
      unfold handleJoinRequest
      rw [hfind]
    have hproj3 : (handleJoinRequest rand now gs playerName).1.cards =
        gs.cards ++ (handleJoinRequest rand now gs playerName).2.2 := by
      unfold handleJoinRequest
      rw [hfind]
    refine ⟨?_, ?_, ?_, ?_, hproj3⟩
    · rw [hproj1]
      intro ⟨c, hc, hco⟩
      exact hspec.1 (List.mem_map.mpr ⟨c, hc, hco⟩)
    · intro s hs
      rw [hproj1] at hs
      obtain ⟨c, hc, hco⟩ := List.mem_map.mp (hspec.2 s hs)
      exact ⟨c, hc, hco⟩
    · rw [hproj2]
      exact generateCards_singleton_length rand now gs.allItems gs.mode playerName _
    · intro card hcard
      rw [hproj2] at hcard
      rw [hproj1]
      exact generateCards_singleton_owner rand now gs.allItems gs.mode playerName _ card hcard

/-- Witness for C7: re-joining `gsJoin` as "ALICE" (case-insensitive
match with "Alice") reuses owner index 0 and adds nothing; joining as
"Bob" generates 4 fresh cards appended to the state. -/
theorem claim_C7_witness :
    (handleJoinRequest ksId 0 gsJoin "Alice").1 = gsJoin ∧
    (handleJoinRequest ksId 0 gsJoin "Alice").2.1 = 0 ∧
    (handleJoinRequest ksId 0 gsCall "Bob").2.2.length = 4 ∧
    (handleJoinRequest ksId 0 gsCall "Bob").1.cards =
      gsCall.cards ++ (handleJoinRequest ksId 0 gsCall "Bob").2.2 := by
  have h1 := (claim_C7_join_idempotent ksId 0 gsJoin "Alice").1 cardJoin
    (by simp [gsJoin, cardJoin, List.find?])
  have h2 := (claim_C7_join_idempotent ksId 0 gsCall "Bob").2 rfl
  exact ⟨h1.1, h1.2.1, h2.2.2.1, h2.2.2.2.2⟩

/-- Witness for C8: an exhausted state is left unchanged; on `gsCall`
the draw issues a call, and three successive calls keep the history
duplicate-free. -/
theorem claim_C8_witness :
    callNextNumber 0 gsExhausted = (gsExhausted, []) ∧
    (callNextNumber 0 gsCall).1.currentCall ≠ none ∧
    (iterateCalls [0, 0, 0] gsCall).calledItems.Nodup := by
  refine ⟨?_, ?_, ?_⟩
  · exact (claim_C8_call_next_no_duplicates gsExhausted 0).1 (by decide)
  · have h := ((claim_C8_call_next_no_duplicates gsCall 0).2.1 (by decide)).2.2.1
    rw [h]
    simp
  · exact (claim_C8_call_next_no_duplicates gsCall 0).2.2 (by decide) [0, 0, 0]


theorem exists_lt_five (P : Nat → Prop) : (∃ r, r < 5 ∧ P r) ↔ P 0 ∨ P 1 ∨ P 2 ∨ P 3 ∨ P 4 := by
  constructor
  · rintro ⟨r, hr, h⟩
    interval_cases r <;> tauto
  · rintro (h | h | h | h | h)
    exacts [⟨0, by omega, h⟩, ⟨1, by omega, h⟩, ⟨2, by omega, h⟩, ⟨3, by omega, h⟩, ⟨4, by omega, h⟩]

theorem forall_lt_five (P : Nat → Prop) : (∀ r, r < 5 → P r) ↔ P 0 ∧ P 1 ∧ P 2 ∧ P 3 ∧ P 4 := by
  constructor
  · intro h
    exact ⟨h 0 (by omega), h 1 (by omega), h 2 (by omega), h 3 (by omega), h 4 (by omega)⟩
  · rintro ⟨h0, h1, h2, h3, h4⟩ r hr
    interval_cases r <;> assumption

theorem cellOk_eq_getD (cells : List BingoCell) (i : Nat) :
    cellOk cells i = ((cells.getD i default).marked || (cells.getD i default).isFreeSpace) := by
  rw [cellOk, List.getD_eq_getElem?_getD]
  cases cells[i]? <;> rfl

theorem claim_C6_any_line (cells : List BingoCell) (h : cells.length = 25) :
    checkPatternMatch cells getStandardPatterns = true ↔
      ((∃ r, r < 5 ∧ ∀ c, c < 5 →
          ((cells.getD (r*5+c) default).marked || (cells.getD (r*5+c) default).isFreeSpace) = true) ∨
       (∃ c, c < 5 ∧ ∀ r, r < 5 →
          ((cells.getD (r*5+c) default).marked || (cells.getD (r*5+c) default).isFreeSpace) = true) ∨
       (∀ i, i < 5 →
          ((cells.getD (i*6) default).marked || (cells.getD (i*6) default).isFreeSpace) = true) ∨
       (∀ i, i < 5 →
          ((cells.getD (4+i*4) default).marked || (cells.getD (4+i*4) default).isFreeSpace) = true)) := by
  have hpat : getStandardPatterns =
      [[0,1,2,3,4],[5,6,7,8,9],[10,11,12,13,14],[15,16,17,18,19],[20,21,22,23,24],
       [0,5,10,15,20],[1,6,11,16,21],[2,7,12,17,22],[3,8,13,18,23],[4,9,14,19,24],
       [0,6,12,18,24],[4,8,12,16,20]] := by rfl
  rw [checkPatternMatch, hpat]
  simp only [List.any_cons, List.any_nil, List.all_cons, List.all_nil,
    Bool.or_false, Bool.and_true, Bool.or_eq_true, Bool.and_eq_true,
    exists_lt_five, forall_lt_five, cellOk_eq_getD cells]
  norm_num
  constructor
  · rintro (h|h|h|h|h|h|h|h|h|h|h|h)
    exacts [Or.inl (Or.inl h),
      Or.inl (Or.inr (Or.inl h)),
      Or.inl (Or.inr (Or.inr (Or.inl h))),
      Or.inl (Or.inr (Or.inr (Or.inr (Or.inl h)))),
      Or.inl (Or.inr (Or.inr (Or.inr (Or.inr h)))),
      Or.inr (Or.inl (Or.inl h)),
      Or.inr (Or.inl (Or.inr (Or.inl h))),
      Or.inr (Or.inl (Or.inr (Or.inr (Or.inl h)))),
      Or.inr (Or.inl (Or.inr (Or.inr (Or.inr (Or.inl h))))),
      Or.inr (Or.inl (Or.inr (Or.inr (Or.inr (Or.inr h))))),
      Or.inr (Or.inr (Or.inl h)),
      Or.inr (Or.inr (Or.inr h))]
  · rintro ((h|h|h|h|h)|(h|h|h|h|h)|h|h)
    exacts [Or.inl h,
      Or.inr (Or.inl h),
      Or.inr (Or.inr (Or.inl h)),
      Or.inr (Or.inr (Or.inr (Or.inl h))),
      Or.inr (Or.inr (Or.inr (Or.inr (Or.inl h)))),
      Or.inr (Or.inr (Or.inr (Or.inr (Or.inr (Or.inl h))))),
      Or.inr (Or.inr (Or.inr (Or.inr (Or.inr (Or.inr (Or.inl h)))))),
      Or.inr (Or.inr (Or.inr (Or.inr (Or.inr (Or.inr (Or.inr (Or.inl h))))))),
      Or.inr (Or.inr (Or.inr (Or.inr (Or.inr (Or.inr (Or.inr (Or.inr (Or.inl h)))))))),
      Or.inr (Or.inr (Or.inr (Or.inr (Or.inr (Or.inr (Or.inr (Or.inr (Or.inr (Or.inl h))))))))),
      Or.inr (Or.inr (Or.inr (Or.inr (Or.inr (Or.inr (Or.inr (Or.inr (Or.inr (Or.inr (Or.inl h)))))))))),
      Or.inr (Or.inr (Or.inr (Or.inr (Or.inr (Or.inr (Or.inr (Or.inr (Or.inr (Or.inr (Or.inr h))))))))))]


/-- Witness for C6: a 25-cell list with exactly row 0 marked satisfies
the ANY_LINE evaluation. -/
theorem claim_C6_witness :
    checkPatternMatch cellsRow0 getStandardPatterns = true :=
  (claim_C6_any_line cellsRow0 (by decide)).mpr (Or.inl ⟨0, by omega, by decide⟩)

end Bingo

namespace Bingo

theorem cons_set_perm {α : Type} : ∀ (t : List α) (m : Nat) (a b : α), t[m]? = some b →
    List.Perm (b :: t.set m a) (a :: t)
  | [], m, a, b, h => by simp at h
  | y :: s, 0, a, b, h => by
    simp at h
    subst h
    exact List.Perm.swap _ _ _
  | y :: s, m+1, a, b, h => by
    have h' : s[m]? = some b := by simpa using h
    have ih := cons_set_perm s m a b h'
    show List.Perm (b :: y :: s.set m a) (a :: y :: s)
    exact (List.Perm.swap y b _).trans ((ih.cons y).trans (List.Perm.swap a y s))

theorem set_set_perm {α : Type} : ∀ (l : List α) (i j : Nat) (a b : α),
    l[i]? = some a → l[j]? = some b → List.Perm ((l.set i b).set j a) l
  | [], i, j, a, b, h1, _ => by simp at h1
  | x :: t, 0, 0, a, b, h1, h2 => by
    simp at h1 h2
    subst h1
    subst h2
    exact List.Perm.refl _
  | x :: t, 0, m+1, a, b, h1, h2 => by
    simp at h1
    subst h1
    have h2' : t[m]? = some b := by simpa using h2
    show List.Perm (b :: t.set m x) (x :: t)
    exact cons_set_perm t m x b h2'
  | x :: t, n+1, 0, a, b, h1, h2 => by
    simp at h2
    subst h2
    have h1' : t[n]? = some a := by simpa using h1
    show List.Perm (a :: t.set n x) (x :: t)
    exact cons_set_perm t n x a h1'
  | x :: t, n+1, m+1, a, b, h1, h2 => by
    have h1' : t[n]? = some a := by simpa using h1
    have h2' : t[m]? = some b := by simpa using h2
    show List.Perm (x :: (t.set n b).set m a) (x :: t)
    exact (set_set_perm t n m a b h1' h2').cons x

theorem jsSwap_perm (l : List Nat) (j k : Nat) : List.Perm (jsSwap l j k) l := by
  unfold jsSwap
  split
  · rename_i a b h1 h2
    exact set_set_perm l j k a b h1 h2
  · exact List.Perm.refl l

theorem shuffleAux_jsSwap_perm (ks : Nat → Nat) :
    ∀ (j : Nat) (l : List Nat), List.Perm (shuffleAux jsSwap ks j l) l
  | 0, l => List.Perm.refl l
  | j+1, l =>
    (shuffleAux_jsSwap_perm ks j (jsSwap l (j+1) (ks (j+1)))).trans
      (jsSwap_perm l (j+1) (ks (j+1)))

theorem stdShuffle_perm (ks : Nat → Nat) (l : List Nat) :
    List.Perm (stdShuffle ks l) l :=
  shuffleAux_jsSwap_perm ks (l.length - 1) l

theorem stdColNumbers_eq (ks : Nat → Nat → Nat) : stdColNumbers ks =
    [(stdShuffle (ks 0) (mkRange 1 15)).take 5,
     (stdShuffle (ks 1) (mkRange 16 30)).take 5,
     (stdShuffle (ks 2) (mkRange 31 45)).take 5,
     (stdShuffle (ks 3) (mkRange 46 60)).take 5,
     (stdShuffle (ks 4) (mkRange 61 75)).take 5] := by
  unfold stdColNumbers stdRanges
  simp [List.enum, List.enumFrom]

theorem stdColNumbers_getD (ks : Nat → Nat → Nat) :
    ∀ c, c < 5 → (stdColNumbers ks).getD c [] =
      (stdShuffle (ks c) (mkRange (15*c+1) (15*c+15))).take 5 := by
  intro c hc
  rw [stdColNumbers_eq]
  interval_cases c <;> simp

theorem colL_facts (ks : Nat → Nat → Nat) (c : Nat) (hc : c < 5) :
    ((stdColNumbers ks).getD c []).length = 5 ∧
    ((stdColNumbers ks).getD c []).Nodup ∧
    ∀ x ∈ (stdColNumbers ks).getD c [], 15*c+1 ≤ x ∧ x ≤ 15*c+15 := by
  rw [stdColNumbers_getD ks c hc]
  have hperm := stdShuffle_perm (ks c) (mkRange (15*c+1) (15*c+15))
  have hrange : mkRange (15*c+1) (15*c+15) = List.range' (15*c+1) 15 := by
    unfold mkRange
    congr 1
    omega
  have hlen : (mkRange (15*c+1) (15*c+15)).length = 15 := by
    rw [hrange]
    simp
  refine ⟨?_, ?_, ?_⟩
  · rw [List.length_take, hperm.length_eq, hlen]
    omega
  · exact (List.take_sublist 5 _).nodup
      (hperm.nodup_iff.mpr (by rw [hrange]; exact List.nodup_range' _ 15 1 Nat.one_pos))
  · intro x hx
    have hmem : x ∈ mkRange (15*c+1) (15*c+15) :=
      hperm.mem_iff.mp (List.take_subset 5 _ hx)
    rw [hrange, List.mem_range'_1] at hmem
    omega

end Bingo

namespace Bingo

theorem standardCells_eq (ks : Nat → Nat → Nat) (playerIdx cardIdx : Nat) :
    standardCells ks playerIdx cardIdx =
    [mkStdCell (stdColNumbers ks) playerIdx cardIdx 0 0,
     mkStdCell (stdColNumbers ks) playerIdx cardIdx 0 1,
     mkStdCell (stdColNumbers ks) playerIdx cardIdx 0 2,
     mkStdCell (stdColNumbers ks) playerIdx cardIdx 0 3,
     mkStdCell (stdColNumbers ks) playerIdx cardIdx 0 4,
     mkStdCell (stdColNumbers ks) playerIdx cardIdx 1 0,
     mkStdCell (stdColNumbers ks) playerIdx cardIdx 1 1,
     mkStdCell (stdColNumbers ks) playerIdx cardIdx 1 2,
     mkStdCell (stdColNumbers ks) playerIdx cardIdx 1 3,
     mkStdCell (stdColNumbers ks) playerIdx cardIdx 1 4,
     mkStdCell (stdColNumbers ks) playerIdx cardIdx 2 0,
     mkStdCell (stdColNumbers ks) playerIdx cardIdx 2 1,
     mkStdCell (stdColNumbers ks) playerIdx cardIdx 2 2,
     mkStdCell (stdColNumbers ks) playerIdx cardIdx 2 3,
     mkStdCell (stdColNumbers ks) playerIdx cardIdx 2 4,
     mkStdCell (stdColNumbers ks) playerIdx cardIdx 3 0,
     mkStdCell (stdColNumbers ks) playerIdx cardIdx 3 1,
     mkStdCell (stdColNumbers ks) playerIdx cardIdx 3 2,
     mkStdCell (stdColNumbers ks) playerIdx cardIdx 3 3,
     mkStdCell (stdColNumbers ks) playerIdx cardIdx 3 4,
     mkStdCell (stdColNumbers ks) playerIdx cardIdx 4 0,
     mkStdCell (stdColNumbers ks) playerIdx cardIdx 4 1,
     mkStdCell (stdColNumbers ks) playerIdx cardIdx 4 2,
     mkStdCell (stdColNumbers ks) playerIdx cardIdx 4 3,
     mkStdCell (stdColNumbers ks) playerIdx cardIdx 4 4] := by
  unfold standardCells
  have hr5 : List.range 5 = [0, 1, 2, 3, 4] := rfl
  rw [hr5]
  simp

theorem standardCells_getD (ks : Nat → Nat → Nat) (playerIdx cardIdx : Nat) :
    ∀ r c, r < 5 → c < 5 →
      (standardCells ks playerIdx cardIdx).getD (r*5+c) default =
        mkStdCell (stdColNumbers ks) playerIdx cardIdx r c := by
  intro r c hr hc
  rw [standardCells_eq]
  interval_cases r <;> interval_cases c <;> simp

theorem mkStdCell_value_nonfree (cols : List (List Nat)) (playerIdx cardIdx r c : Nat)
    (hfree : ¬(r = 2 ∧ c = 2)) (hlen : (cols.getD c []).length = 5) (hr : r < 5) :
    (mkStdCell cols playerIdx cardIdx r c).value =
      .num ((cols.getD c []).getD r 0) ∧
    (cols.getD c []).getD r 0 ∈ cols.getD c [] := by
  have hfree' : (r == 2 && c == 2) = false := by
    by_cases h2 : r = 2
    · by_cases h3 : c = 2
      · exact absurd ⟨h2, h3⟩ hfree
      · simp [h3]
    · simp [h2]
  have hrl : r < (cols.getD c []).length := by omega
  have hget : (cols.getD c [])[r]? = some ((cols.getD c []).get ⟨r, hrl⟩) :=
    List.getElem?_eq_getElem hrl
  have hgd : (cols.getD c []).getD r 0 = (cols.getD c []).get ⟨r, hrl⟩ := by
    rw [List.getD_eq_getElem?_getD, hget]
    rfl
  constructor
  · show (if (r == 2 && c == 2) = true then CellValue.str "FREE"
      else match (cols.getD c [])[r]? with
        | some n => CellValue.num n
        | none => CellValue.undef) = _
    rw [if_neg (by simp [hfree']), hget, hgd]
  · rw [hgd]
    exact List.getElem_mem hrl

theorem mkStdCell_value_free (cols : List (List Nat)) (playerIdx cardIdx : Nat) :
    (mkStdCell cols playerIdx cardIdx 2 2).value = .str "FREE" := rfl

theorem mkStdCell_free_flag (cols : List (List Nat)) (playerIdx cardIdx r c : Nat) :
    (mkStdCell cols playerIdx cardIdx r c).isFreeSpace = (r == 2 && c == 2) := rfl

end Bingo

namespace Bingo

theorem getD_eq_getElem_of_lt (L : List Nat) (r : Nat) (hl : r < L.length) :
    L.getD r 0 = L.get ⟨r, hl⟩ := by
  rw [List.getD_eq_getElem?_getD, List.getElem?_eq_getElem hl]
  rfl

theorem stdValue_inj (ks : Nat → Nat → Nat) (playerIdx cardIdx : Nat) :
    ∀ r c r' c', r < 5 → c < 5 → r' < 5 → c' < 5 →
      (mkStdCell (stdColNumbers ks) playerIdx cardIdx r c).value =
        (mkStdCell (stdColNumbers ks) playerIdx cardIdx r' c').value →
      r = r' ∧ c = c' := by
  intro r c r' c' hr hc hr' hc' heq
  by_cases hf : r = 2 ∧ c = 2
  · by_cases hf' : r' = 2 ∧ c' = 2
    · exact ⟨hf.1.trans hf'.1.symm, hf.2.trans hf'.2.symm⟩
    · rw [hf.1, hf.2, mkStdCell_value_free,
        (mkStdCell_value_nonfree (stdColNumbers ks) playerIdx cardIdx r' c' hf'
          (colL_facts ks c' hc').1 hr').1] at heq
      exact absurd heq (by simp)
  · by_cases hf' : r' = 2 ∧ c' = 2
    · rw [hf'.1, hf'.2, mkStdCell_value_free,
        (mkStdCell_value_nonfree (stdColNumbers ks) playerIdx cardIdx r c hf
          (colL_facts ks c hc).1 hr).1] at heq
      exact absurd heq (by simp)
    · have h1 := mkStdCell_value_nonfree (stdColNumbers ks) playerIdx cardIdx r c hf
        (colL_facts ks c hc).1 hr
      have h2 := mkStdCell_value_nonfree (stdColNumbers ks) playerIdx cardIdx r' c' hf'
        (colL_facts ks c' hc').1 hr'
      rw [h1.1, h2.1] at heq
      have hx : ((stdColNumbers ks).getD c []).getD r 0 =
          ((stdColNumbers ks).getD c' []).getD r' 0 := by
        injection heq
      have hb1 := (colL_facts ks c hc).2.2 _ h1.2
      have hb2 := (colL_facts ks c' hc').2.2 _ h2.2
      rw [hx] at hb1
      have hcc : c = c' := by omega
      subst hcc
      have hnd := (colL_facts ks c hc).2.1
      have hlen5 := (colL_facts ks c hc).1
      have hrl : r < ((stdColNumbers ks).getD c []).length := by omega
      have hrl' : r' < ((stdColNumbers ks).getD c []).length := by omega
      rw [getD_eq_getElem_of_lt _ r hrl, getD_eq_getElem_of_lt _ r' hrl'] at hx
      exact ⟨(List.Nodup.getElem_inj_iff hnd).mp hx, rfl⟩

theorem standardCells_values_nodup (ks : Nat → Nat → Nat) (playerIdx cardIdx : Nat) :
    ((standardCells ks playerIdx cardIdx).map (fun cell => cell.value)).Nodup := by
  have hmap : (standardCells ks playerIdx cardIdx).map (fun cell => cell.value) =
      (List.range 5).flatMap (fun r => (List.range 5).map (fun c =>
        (mkStdCell (stdColNumbers ks) playerIdx cardIdx r c).value)) := by
    unfold standardCells
    rw [List.map_flatMap]
    rfl
  rw [hmap, List.nodup_flatMap]
  constructor
  · intro r hrmem
    rw [List.mem_range] at hrmem
    refine List.Nodup.map_on ?_ (List.nodup_range 5)
    intro c hc c' hc' hcc
    rw [List.mem_range] at hc hc'
    exact (stdValue_inj ks playerIdx cardIdx r c r c' hrmem hc hrmem hc' hcc).2
  · refine List.Pairwise.imp_of_mem ?_ (List.pairwise_lt_range 5)
    intro r r' hrmem hrmem' hlt a ha ha'
    rw [List.mem_range] at hrmem hrmem'
    rw [List.mem_map] at ha ha'
    obtain ⟨c, hc, rfl⟩ := ha
    obtain ⟨c', hc', heq⟩ := ha'
    rw [List.mem_range] at hc hc'
    have := (stdValue_inj ks playerIdx cardIdx r' c' r c hrmem' hc' hrmem hc heq).1
    omega

end Bingo

namespace Bingo

/-- Claim C5: every card of a STANDARD `generateCards` batch has each
non-free cell of column `c` holding a value in that column's 15-number
range (B 1-15, I 16-30, N 31-45, G 46-60, O 61-75), and no two cells of
the card hold the same value. -/
theorem claim_C5_standard_columns_and_distinct
    (rand : Nat → Nat → Nat → Nat → Nat) (now : Nat) (items : List CellValue)
    (playerNames : List String) (startIndex : Nat) :
    ∀ card ∈ generateCards rand now items .STANDARD playerNames startIndex,
      (∀ r c, r < 5 → c < 5 → ¬(r = 2 ∧ c = 2) →
        ∃ n, (card.cells.getD (r*5+c) default).value = CellValue.num n ∧
          15*c+1 ≤ n ∧ n ≤ 15*c+15) ∧
      (card.cells.map (fun cell => cell.value)).Nodup := by
  intro card hcard
  simp only [generateCards] at hcard
  rw [List.mem_flatMap] at hcard
  obtain ⟨p, hp, hcard⟩ := hcard
  rw [List.mem_map] at hcard
  obtain ⟨cardIdx, hci, rfl⟩ := hcard
  constructor
  · intro r c hr hc hfree
    have hkey := standardCells_getD (rand p.1 cardIdx) (startIndex + p.1) cardIdx r c hr hc
    have hval := mkStdCell_value_nonfree (stdColNumbers (rand p.1 cardIdx))
      (startIndex + p.1) cardIdx r c hfree (colL_facts (rand p.1 cardIdx) c hc).1 hr
    refine ⟨((stdColNumbers (rand p.1 cardIdx)).getD c []).getD r 0, ?_, ?_⟩
    · show (((standardCells (rand p.1 cardIdx) (startIndex + p.1) cardIdx)).getD
        (r*5+c) default).value = _
      rw [hkey, hval.1]
    · exact (colL_facts (rand p.1 cardIdx) c hc).2.2 _ hval.2
  · show ((standardCells (rand p.1 cardIdx) (startIndex + p.1) cardIdx).map
      (fun cell => cell.value)).Nodup
    exact standardCells_values_nodup (rand p.1 cardIdx) (startIndex + p.1) cardIdx

end Bingo

namespace Bingo

/-- Witness for C5: on a concrete draw the first generated card's cell
at row 0 column 1 carries an I-column value (16..30) and the whole card
has pairwise distinct values. -/
theorem claim_C5_witness :
    (∃ n, (((generateCards ksId 0 [] .STANDARD ["A"] 0).getD 0 default).cells.getD
        (0*5+1) default).value = CellValue.num n ∧ 15*1+1 ≤ n ∧ n ≤ 15*1+15) ∧
    (((generateCards ksId 0 [] .STANDARD ["A"] 0).getD 0 default).cells.map
      (fun cell => cell.value)).Nodup := by
  have h := claim_C5_standard_columns_and_distinct ksId 0 [] ["A"] 0
    ((generateCards ksId 0 [] .STANDARD ["A"] 0).getD 0 default) (by decide)
  exact ⟨h.1 0 1 (by omega) (by omega) (by simp), h.2⟩

end Bingo
